import Mathlib

/-!
Verification of the knight.js interpreter core: a shallow embedding of the
runtime value model (Int, Str, Bool, List, Null literals), their coercions
and operations, and the literal parsers, translated from the JavaScript
sources, together with theorems settling the specification claims.

Strings are modelled as `List Char` (JS strings are sequences of code
units; every string appearing in the claims is ASCII, where the two
notions coincide).  JS numbers holding integer values are modelled as
`Int`; the spec leaves the integer width / overflow policy open
(section 9), so arithmetic is exact.
-/

namespace Knight

/-- The error taxonomy.  `runtimeError` and `parseError` are the two
declared kinds of the repository's error family; `referenceError` and
`rangeError` model failures of the underlying JavaScript host that the
code can raise (referencing an identifier that is not in scope, and
`String.prototype.repeat` with a negative count). -/
inductive Err where
  | runtimeError (msg : String)
  | parseError (msg : String)
  | referenceError (msg : String)
  | rangeError (msg : String)
deriving DecidableEq, Repr

/-- The closed set of literal runtime values: Int, Str, Bool, List, Null.
(Operator-application nodes are compound values outside the scope of the
claims, which are all about literal data and parsing of literals.) -/
inductive Value where
  | int (n : Int)
  | str (s : List Char)
  | bool (b : Bool)
  | list (l : List Value)
  | null
deriving Repr

/-- JS `parseInt(s, 10) || 0`: skip leading whitespace, an optional sign,
then as many decimal digits as possible; no digits gives NaN, which the
`|| 0` turns into 0 (as does an actual parse of 0 or -0). -/
def parseIntJS (s : List Char) : Int :=
  let s1 := s.dropWhile Char.isWhitespace
  let (sign, s2) : Int × List Char :=
    match s1 with
    | '-' :: rest => (-1, rest)
    | '+' :: rest => (1, rest)
    | _ => (1, s1)
  let digs := s2.takeWhile Char.isDigit
  sign * (digs.foldl (fun acc c => 10 * acc + (c.toNat - '0'.toNat)) 0 : Nat)

/-- Decimal text of an integer, as JS `String(number)` produces for an
integer-valued number. -/
def intToChars (n : Int) : List Char :=
  if n < 0 then '-' :: (Nat.repr n.natAbs).data else (Nat.repr n.toNat).data

/-- `toNumber()`: Int is itself; Str parses as `parseInt(..) || 0`
(`Str.toNumber`); Bool is `Number(bool)`, i.e. 0 or 1 (`Literal.toNumber`);
List is its length (`List.toNumber`); Null is `Number(null) = 0`. -/
def toNumber : Value → Int
  | .int n => n
  | .str s => parseIntJS s
  | .bool b => if b then 1 else 0
  | .list l => l.length
  | .null => 0

/-- `toBoolean()`: Int nonzero; Str nonempty; Bool itself; List nonempty;
Null false (`Boolean(null)`). -/
def toBoolean : Value → Bool
  | .int n => n != 0
  | .str s => !s.isEmpty
  | .bool b => b
  | .list l => !l.isEmpty
  | .null => false

/-- `Int.toArray`: 0 gives `[0]`; otherwise the digits of the absolute
value, most significant first, each multiplied by the sign.  The source
loop collects digits least significant first (`num % 10`, `num / 10`) and
reverses; `Nat.digits 10` produces exactly that least-significant-first
list, and the loop's extra `num !== -1` test is vacuous since `num` is
`Math.abs` of the data. -/
def intToArray (n : Int) : List Value :=
  if n = 0 then [.int 0]
  else (((Nat.digits 10 n.natAbs).map fun d => Value.int (n.sign * d))).reverse

/-- `toArray()` / `toList()`: Int gives its digit list; Str gives one
one-character Str per character in order; Bool gives `[]` for false and
`[this]` for true; List gives its elements; Null gives `[]`. -/
def toArray : Value → List Value
  | .int n => intToArray n
  | .str s => s.map fun c => Value.str [c]
  | .bool b => if b then [.bool true] else []
  | .list l => l
  | .null => []

/-- Joins string forms with a newline, as `Array.prototype.join('\n')`. -/
def joinNewline : List (List Char) → List Char
  | [] => []
  | [s] => s
  | s :: rest => s ++ '\n' :: joinNewline rest

mutual

/-- `toString()`: Int is its decimal text (`String(number)`); Str is its
own data; Bool is "true"/"false" (`String(bool)`); List joins its
elements' string forms with a newline (`List.toString`); Null is the
empty string (`Null.toString` override). -/
def toText : Value → List Char
  | .int n => intToChars n
  | .str s => s
  | .bool b => if b then "true".data else "false".data
  | .list l => joinNewline (toTextList l)
  | .null => []

/-- String forms of a list of values, in order. -/
def toTextList : List Value → List (List Char)
  | [] => []
  | v :: rest => toText v :: toTextList rest

end

mutual

/-- `eql(rhs)`: `Literal.eql` demands the same concrete class and `===`
on the underlying data (Int, Str, Bool compare their data; two Nulls both
hold `null`, so they are equal); `List.eql` overrides with a length check
followed by an element-wise recursive `eql`.  Any cross-variant pair
fails the `instanceof` test and gives false. -/
def eql : Value → Value → Bool
  | .int n, .int m => n == m
  | .str s, .str t => s == t
  | .bool a, .bool b => a == b
  | .null, .null => true
  | .list l, .list m => l.length == m.length && eqlList l m
  | _, _ => false

/-- Element-wise `eql` over the common length (the caller has already
checked the lengths agree; unequal lengths answer false either way). -/
def eqlList : List Value → List Value → Bool
  | [], [] => true
  | a :: as, b :: bs => eql a b && eqlList as bs
  | _, _ => false

end

/-- Lexicographic comparison of two JS strings by code unit, as the JS
`<` / `>` operators used by `Str.cmp` behave: -1, 0 or 1. -/
def strCompare (a b : List Char) : Int :=
  match a, b with
  | [], [] => 0
  | [], _ :: _ => -1
  | _ :: _, [] => 1
  | x :: xs, y :: ys =>
    if x.toNat < y.toNat then -1
    else if y.toNat < x.toNat then 1
    else strCompare xs ys

mutual

/-- `cmp(rhs)`: Int subtracts `rhs.toNumber()` (`Int.cmp`); Str compares
lexicographically with `rhs.toString()` (`Str.cmp`); Bool subtracts the
numeric forms of the two booleans (`Bool.cmp`); Null always throws a
`RuntimeError` (`Null.cmp`); List coerces `rhs` with `toArray()` and
compares element-wise (`List.cmp`). -/
def cmp : Value → Value → Except Err Int
  | .int n, rhs => .ok (n - toNumber rhs)
  | .str s, rhs => .ok (strCompare s (toText rhs))
  | .bool b, rhs =>
    .ok ((if b then (1 : Int) else 0) - (if toBoolean rhs then 1 else 0))
  | .null, _ => .error (.runtimeError "Cannot compare Null.")
  | .list l, rhs => cmpList l (toArray rhs)

/-- The loop of `List.cmp`: walk the two arrays together; the first index
whose element comparison is nonzero (or raises) decides; if the common
length is exhausted, the result is `this._data.length - rhs.length`. -/
def cmpList : List Value → List Value → Except Err Int
  | [], bs => .ok (-(bs.length : Int))
  | _ :: as, [] => .ok ((as.length : Int) + 1)
  | a :: as, b :: bs =>
    match cmp a b with
    | .error e => .error e
    | .ok r => if r ≠ 0 then .ok r else cmpList as bs

end

/-! ### Int operations (src Int class) -/

/-- `Int.div(rhs)`: coerce `rhs` to a number; a zero divisor raises a
RuntimeError (`!rhsInt`), otherwise the result is `Math.trunc(a / b)`,
division truncated toward zero, which is `Int.tdiv`. -/
def intDiv (a : Int) (rhs : Value) : Except Err Value :=
  let rhsInt := toNumber rhs
  if rhsInt = 0 then .error (.runtimeError "Cannot divide by zero")
  else .ok (.int (a.tdiv rhsInt))

/-- `Int.mod(rhs)`: a zero divisor raises a RuntimeError, otherwise the
result is the JS `%` remainder, which carries the sign of the dividend:
`Int.tmod`. -/
def intMod (a : Int) (rhs : Value) : Except Err Value :=
  let rhsInt := toNumber rhs
  if rhsInt = 0 then .error (.runtimeError "Cannot modulo by zero")
  else .ok (.int (a.tmod rhsInt))

/-- `Math.trunc(b ** e)` for integer `b` and `e`, exact over the
mathematical value of the power (the spec leaves overflow policy open,
section 9).  For `e ≥ 0` the power is already an integer; for `e < 0`
the power is `1 / b^|e|`, whose truncation is `±1` for `b = ±1` and `0`
for `|b| ≥ 2` (the case `b = 0`, `e < 0` is guarded before this is
reached). -/
def powTrunc (b e : Int) : Int :=
  if 0 ≤ e then b ^ e.toNat
  else if b = 1 then 1
  else if b = -1 then (if e.natAbs % 2 = 0 then 1 else -1)
  else 0

/-- `Int.pow(rhs)`: raising zero to a negative power raises a
RuntimeError (`!this._data && rhsInt < 0`); otherwise the result is
`Math.trunc(this._data ** rhsInt)`. -/
def intPow (a : Int) (rhs : Value) : Except Err Value :=
  let rhsInt := toNumber rhs
  if a = 0 ∧ rhsInt < 0 then
    .error (.runtimeError "Cannot exponentiate zero to a negative power")
  else .ok (.int (powTrunc a rhsInt))

/-! ### Str operations (src Str class) -/

/-- `Str.add(rhs)`: the template literal concatenates the two string
forms (`this.toString()` is the data itself). -/
def strAdd (s : List Char) (rhs : Value) : Value :=
  .str (s ++ toText rhs)

/-- `Str.mul(rhs)`: `this._data.repeat(rhs.toNumber())`.  JS
`String.prototype.repeat` returns the text repeated `count` times (the
empty string for count 0) but throws a host RangeError for a negative
count. -/
def strMul (s : List Char) (rhs : Value) : Except Err Value :=
  let n := toNumber rhs
  if n < 0 then .error (.rangeError "Invalid count value")
  else .ok (.str (List.flatten (List.replicate n.toNat s)))

/-- `Str.head()`: the guard on the empty string executes
`throw new RuntimeError("head on empty string")`, but the Str module only
imports `ParseError` from `./error.js` — `RuntimeError` is not in scope,
so the host raises a ReferenceError instead of the intended
RuntimeError.  On a nonempty string the first character is returned as a
one-character Str. -/
def strHead (s : List Char) : Except Err Value :=
  match s with
  | [] => .error (.referenceError "RuntimeError is not defined")
  | c :: _ => .ok (.str [c])

/-- `Str.tail()`: same missing-import situation as `Str.head` on the
empty string; on a nonempty string, `substr(1)` returns everything after
the first character. -/
def strTail (s : List Char) : Except Err Value :=
  match s with
  | [] => .error (.referenceError "RuntimeError is not defined")
  | _ :: rest => .ok (.str rest)

/-! ### List operations (src List class) -/

/-- `List.head()`: the empty list raises a RuntimeError (the List module
does import `RuntimeError`); otherwise the first element is returned. -/
def listHead (l : List Value) : Except Err Value :=
  match l with
  | [] => .error (.runtimeError "head on empty list")
  | v :: _ => .ok v

/-- `List.tail()`: the empty list raises a RuntimeError; otherwise a new
List holding `slice(1)`, everything after the first element. -/
def listTail (l : List Value) : Except Err Value :=
  match l with
  | [] => .error (.runtimeError "tail on empty list")
  | _ :: rest => .ok (.list rest)

/-- `List.add(rhs)`: a new List of the data concatenated with
`rhs.toArray()`. -/
def listAdd (l : List Value) (rhs : Value) : Value :=
  .list (l ++ toArray rhs)

/-- The loop of `List.mul` (part_001): `while (num--) acc = acc.concat(data)`.
The condition tests the pre-decrement value for truthiness, so the loop
stops exactly when `num` is 0 and otherwise appends `data` and continues
with `num - 1`; started from a negative `num` it never reaches 0.  `fuel`
bounds the number of iterations modelled: `none` means the loop has not
finished within `fuel` tests. -/
def listMulLoop (data : List Value) : Nat → Int → List Value → Option (List Value)
  | 0, _, _ => none
  | fuel + 1, num, acc =>
    if num = 0 then some acc
    else listMulLoop data fuel (num - 1) (acc ++ data)

/-- `List.mul(rhs)` (part_001): `num = rhs.toNumber()`, then the
while-loop starting from an empty accumulator.  `none` means the loop is
still running after `fuel` iterations. -/
def listMul (l : List Value) (rhs : Value) (fuel : Nat) : Option (List Value) :=
  listMulLoop l fuel (toNumber rhs) []

/-- Rebuilding a list element-wise (the spec's "reconstructing l
element-wise"): fold the elements back, one at a time, into a fresh
list. -/
def rebuild (l : List Value) : List Value := l.foldr (fun v acc => v :: acc) []

/-- Specification-side repetition: `x` repeated `k` times, written
independently of the loops in the source so the loop results can be
compared against it. -/
def repeatN {α : Type} (x : List α) : Nat → List α
  | 0 => []
  | k + 1 => x ++ repeatN x k

/-! ### Parsing (src per-variant `parse` probes, spec-modelled dispatch) -/

/-- Uppercase ASCII letter, the regex character class `[A-Z]`. -/
def isUpperAZ (c : Char) : Bool := 'A' ≤ c && c ≤ 'Z'

/-- `Bool.parse`: the anchored regex `^([TF])[A-Z]*` with capture 1 — a
leading `T` or `F`, any following run of uppercase letters consumed as
noise; the boolean is whether the captured letter is `T`. -/
def boolParse (s : List Char) : Option (Value × List Char) :=
  match s with
  | c :: rest =>
    if c = 'T' || c = 'F' then some (.bool (c = 'T'), rest.dropWhile isUpperAZ)
    else none
  | [] => none

/-- `Null.parse`: the anchored regex `^N[A-Z]*`. -/
def nullParse (s : List Char) : Option (Value × List Char) :=
  match s with
  | 'N' :: rest => some (.null, rest.dropWhile isUpperAZ)
  | _ => none

/-- `Int.parse`: the anchored regex `^\d+`, the matched decimal digits
read by `Number(match)`. -/
def intParse (s : List Char) : Option (Value × List Char) :=
  let digs := s.takeWhile Char.isDigit
  if digs.isEmpty then none
  else
    some (.int ((digs.foldl (fun acc c => 10 * acc + (c.toNat - '0'.toNat)) 0 : Nat) : Int),
      s.drop digs.length)

/-- `List.parse`: the anchored regex `^@` yields an empty List. -/
def listParse (s : List Char) : Option (Value × List Char) :=
  match s with
  | '@' :: rest => some (.list [], rest)
  | _ => none

/-- First occurrence of the closing quote `q`, as the lazy regex
`(["'])([\s\S]*?)\1` matches: the shortest body followed by the same
quote character.  Returns the body and the remainder after the closing
quote, or `none` when no closing quote exists. -/
def scanClose (q : Char) : List Char → Option (List Char × List Char)
  | [] => none
  | c :: rest =>
    if c = q then some ([], rest)
    else
      match scanClose q rest with
      | some (body, after) => some (c :: body, after)
      | none => none

/-- `Str.parse`: try the anchored regex `^(["'])([\s\S]*?)\1`, keeping
capture 2 (the body).  When it fails but the stream still starts with a
quote (`peek`), the opening quote had no matching close and a ParseError
is thrown, its message interpolating the stream; otherwise the probe
declines with `none`. -/
def strParse (s : List Char) : Except Err (Option (Value × List Char)) :=
  match s with
  | c :: rest =>
    if c = '"' || c = '\'' then
      match scanClose c rest with
      | some (body, after) => .ok (some (.str body, after))
      | none =>
        .error (.parseError ("Unterminated quote encountered: " ++ String.mk s))
    else .ok none
  | [] => .ok none

mutual

/-- Modelled from the spec: `src/stream.js` (the cursor) is not among the
provided sources; per spec section 4.3 the cursor elides leading
whitespace and `#`-to-end-of-line comments before each parse attempt
(the no-op separator punctuation it also elides never occurs in the
inputs considered here). -/
def skipSpace : List Char → List Char
  | [] => []
  | c :: rest =>
    if c.isWhitespace then skipSpace rest
    else if c = '#' then skipComment rest
    else c :: rest

/-- Inside a `#` comment: elide to the end of the line, then resume the
whitespace elision. -/
def skipComment : List Char → List Char
  | [] => []
  | c :: rest => if c = '\n' then skipSpace rest else skipComment rest

end

/-- Modelled from the spec: `src/value.js` (the `Value.parse` dispatcher
over the `TYPES` registry) is not among the provided sources; per spec
section 4.3 it tries the registered variant probes in registration order
at the current position, the first success winning, and `null` when all
decline.  The five literal probes are the translations above; their
accepted leading characters are pairwise disjoint (digit, quote,
`T`/`F`, `N`, `@`), so their relative order is immaterial, and the
operator-application probe (`src/func.js`, also absent) is not modelled:
per spec section 8 the inputs considered here parse as literals. -/
def valueParse (s : List Char) : Except Err (Option (Value × List Char)) :=
  let s1 := skipSpace s
  match intParse s1 with
  | some r => .ok (some r)
  | none =>
    match strParse s1 with
    | .error e => .error e
    | .ok (some r) => .ok (some r)
    | .ok none =>
      match boolParse s1 with
      | some r => .ok (some r)
      | none =>
        match nullParse s1 with
        | some r => .ok (some r)
        | none =>
          match listParse s1 with
          | some r => .ok (some r)
          | none => .ok none

/-- The top-level `run` (part_004): parse one value from the start of the
source (trailing text ignored); a `null` parse becomes the ParseError
`No value could be parsed!`; otherwise the value is `run()`, and
`Literal.run` returns the literal itself. -/
def runSource (input : List Char) : Except Err Value :=
  match valueParse input with
  | .error e => .error e
  | .ok none => .error (.parseError "No value could be parsed!")
  | .ok (some (v, _)) => .ok v

/-! ### Helper lemmas -/

/-- `List.flatten ∘ List.replicate` is the specification-side repetition. -/
theorem flatten_replicate_eq_repeatN {α : Type} (x : List α) (k : Nat) :
    List.flatten (List.replicate k x) = repeatN x k := by
  induction k with
  | zero => rfl
  | succ k ih => simp [List.replicate_succ, List.flatten_cons, repeatN, ih]

mutual

/-- `eql` is reflexive on every value (content equality of a value with
itself). -/
theorem eql_refl (v : Value) : eql v v = true := by
  cases v with
  | int n => simp [eql]
  | str s => simp [eql]
  | bool b => simp [eql]
  | null => rfl
  | list l => simp [eql]; exact eqlList_refl l

/-- Element-wise `eql` is reflexive. -/
theorem eqlList_refl (l : List Value) : eqlList l l = true := by
  cases l with
  | nil => rfl
  | cons a as =>
    simp only [eqlList, Bool.and_eq_true]
    exact ⟨eql_refl a, eqlList_refl as⟩

end

mutual

/-- `eql` answering true forces the two values to be the same variant
with the same content, i.e. equal. -/
theorem eql_eq (v w : Value) (h : eql v w = true) : v = w := by
  cases v <;> cases w <;> simp [eql] at h <;> try rw [h]
  case null.null => rfl
  case list.list l m => exact congrArg Value.list (eqlList_eq l m h.2)

/-- Element-wise `eql` answering true forces list equality. -/
theorem eqlList_eq (l m : List Value) (h : eqlList l m = true) : l = m := by
  match l, m with
  | [], [] => rfl
  | [], _ :: _ => exact nomatch h
  | _ :: _, [] => exact nomatch h
  | a :: as, b :: bs =>
    simp only [eqlList, Bool.and_eq_true] at h
    rw [eql_eq a b h.1, eqlList_eq as bs h.2]

end

/-- The `List.cmp` loop: when the element comparisons agree (result 0)
strictly below index `k` and the comparison at `k` is a nonzero `c`, the
loop answers `c` — the first differing element decides. -/
theorem cmpList_first_diff :
    ∀ (as bs : List Value) (k : Nat) (hka : k < as.length)
      (hkb : k < bs.length) (c : Int),
      (∀ (i : Nat) (hia : i < as.length) (hib : i < bs.length), i < k →
        cmp (as.get ⟨i, hia⟩) (bs.get ⟨i, hib⟩) = .ok 0) →
      cmp (as.get ⟨k, hka⟩) (bs.get ⟨k, hkb⟩) = .ok c → c ≠ 0 →
      cmpList as bs = .ok c := by
  intro as
  induction as with
  | nil => intro bs k hka; exact absurd hka (by simp)
  | cons a as ih =>
    intro bs k hka hkb c hpre hk hc
    match bs, k with
    | b :: bs, 0 =>
      have hk0 : cmp a b = .ok c := hk
      simp [cmpList, hk0, hc]
    | b :: bs, k + 1 =>
      have h0 : cmp a b = .ok 0 := hpre 0 (by simp) (by simp) (by omega)
      have hk1 : cmp (as.get ⟨k, by simpa using hka⟩)
          (bs.get ⟨k, by simpa using hkb⟩) = .ok c := hk
      simp only [cmpList, h0, ne_eq, not_true_eq_false, if_neg, reduceIte]
      exact ih bs k (by simpa using hka) (by simpa using hkb) c
        (fun i hia hib hik =>
          by simpa using hpre (i + 1) (by simpa) (by simpa) (by omega))
        hk1 hc

/-- The `List.cmp` loop: when the element comparisons agree over the
whole common length, the loop answers the length difference — a proper
prefix compares less. -/
theorem cmpList_all_eq :
    ∀ (as bs : List Value),
      (∀ (i : Nat) (hia : i < as.length) (hib : i < bs.length),
        cmp (as.get ⟨i, hia⟩) (bs.get ⟨i, hib⟩) = .ok 0) →
      cmpList as bs = .ok ((as.length : Int) - bs.length) := by
  intro as
  induction as with
  | nil => intro bs _; simp [cmpList]
  | cons a as ih =>
    intro bs hpre
    match bs with
    | [] => simp [cmpList]
    | b :: bs =>
      have h0 : cmp a b = .ok 0 := hpre 0 (by simp) (by simp)
      have htail := ih bs
        (fun i hia hib => by simpa using hpre (i + 1) (by simpa) (by simpa))
      simp only [cmpList, h0, ne_eq, not_true_eq_false, if_neg, reduceIte, htail]
      congr 1
      simp only [List.length_cons]
      push_cast
      ring

/-! ### Claim theorems -/

/-- Claim C1: for every Int `a` and every value `b` whose numeric coercion
is nonzero, `a.div(b)` returns the quotient truncated toward zero
(`Int.tdiv`; in particular `(-7).div(2) = -3` and `7.div(-2) = -3`), and
both `a.div(b)` and `a.mod(b)` fail with a RuntimeError whenever `b`'s
numeric coercion is zero. -/
theorem intDiv_intMod_spec (a : Int) (b : Value) :
    (toNumber b ≠ 0 → intDiv a b = .ok (.int (a.tdiv (toNumber b)))) ∧
    (toNumber b = 0 →
      intDiv a b = .error (.runtimeError "Cannot divide by zero") ∧
      intMod a b = .error (.runtimeError "Cannot modulo by zero")) ∧
    intDiv (-7) (.int 2) = .ok (.int (-3)) ∧
    intDiv 7 (.int (-2)) = .ok (.int (-3)) := by
  refine ⟨fun h => ?_, fun h => ⟨?_, ?_⟩, rfl, rfl⟩ <;> simp [intDiv, intMod, h]

/-- Witness for C1 at concrete inputs. -/
theorem intDiv_intMod_spec_witness :
    intDiv (-7) (.int 2) = .ok (.int (-3)) ∧
    intDiv 1 (.int 0) = .error (.runtimeError "Cannot divide by zero") ∧
    intMod 1 (.int 0) = .error (.runtimeError "Cannot modulo by zero") :=
  ⟨(intDiv_intMod_spec (-7) (.int 2)).1 (by decide),
   ((intDiv_intMod_spec 1 (.int 0)).2.1 rfl).1,
   ((intDiv_intMod_spec 1 (.int 0)).2.1 rfl).2⟩

/-- Claim C2 (evaluation of the code at the divergence): `head`/`tail` on
an empty List do raise a RuntimeError as claimed, and on nonempty data
`head`/`tail` return first/rest for both Str and List — but on an empty
Str the code raises a host ReferenceError, never a RuntimeError, because
the Str module imports only `ParseError` from `./error.js` and the
identifier `RuntimeError` in its `head`/`tail` guards is unbound. -/
theorem head_tail_empty_eval :
    listHead [] = .error (.runtimeError "head on empty list") ∧
    listTail [] = .error (.runtimeError "tail on empty list") ∧
    strHead [] = .error (.referenceError "RuntimeError is not defined") ∧
    strTail [] = .error (.referenceError "RuntimeError is not defined") ∧
    (∀ m, strHead [] ≠ .error (.runtimeError m)) ∧
    (∀ m, strTail [] ≠ .error (.runtimeError m)) ∧
    (∀ (c : Char) (s : List Char),
      strHead (c :: s) = .ok (.str [c]) ∧ strTail (c :: s) = .ok (.str s)) ∧
    (∀ (v : Value) (l : List Value),
      listHead (v :: l) = .ok v ∧ listTail (v :: l) = .ok (.list l)) := by
  refine ⟨rfl, rfl, rfl, rfl, fun m => ?_, fun m => ?_,
    fun c s => ⟨rfl, rfl⟩, fun v l => ⟨rfl, rfl⟩⟩ <;> simp [strHead, strTail]

/-- Claim C3 (counterexample): the claim says `s.mul(n)` returns the empty
string whenever `n.toNumber() ≤ 0`, but at `s = "a"`, `n = Int(-1)` the
call does not return the empty string — `String.prototype.repeat` throws
a RangeError on the negative count. -/
theorem strMul_neg_counterexample :
    toNumber (.int (-1)) ≤ 0 ∧
    strMul "a".data (.int (-1)) ≠ .ok (.str []) ∧
    strMul "a".data (.int (-1)) = .error (.rangeError "Invalid count value") := by
  refine ⟨by decide, ?_, rfl⟩
  intro h
  exact Except.noConfusion h

/-- Claim C3 (amended): for every Str `s` and value `n`, when
`n.toNumber() ≥ 0`, `s.mul(n)` returns `s`'s text repeated `n.toNumber()`
times (the empty string when it is zero); when `n.toNumber()` is
negative, the call fails (`String.prototype.repeat` throws a
RangeError). -/
theorem strMul_spec (s : List Char) (n : Value) :
    (0 ≤ toNumber n →
      strMul s n = .ok (.str (repeatN s (toNumber n).toNat))) ∧
    (toNumber n = 0 → strMul s n = .ok (.str [])) ∧
    (toNumber n < 0 → strMul s n = .error (.rangeError "Invalid count value")) := by
  refine ⟨fun h => ?_, fun h => ?_, fun h => ?_⟩
  · simp [strMul, Int.not_lt.mpr h, flatten_replicate_eq_repeatN]
  · simp [strMul, h, repeatN]
  · simp [strMul, h]

/-- Witness for C3 (amended) at concrete inputs. -/
theorem strMul_spec_witness :
    strMul "ab".data (.int 3) = .ok (.str "ababab".data) ∧
    strMul "ab".data (.int 0) = .ok (.str []) ∧
    strMul "ab".data (.int (-2)) = .error (.rangeError "Invalid count value") :=
  ⟨(strMul_spec "ab".data (.int 3)).1 (by decide),
   (strMul_spec "ab".data (.int 0)).2.1 rfl,
   (strMul_spec "ab".data (.int (-2))).2.2 (by decide)⟩

/-- Claim C5: List comparison is element-wise lexicographic over the
right operand coerced to a list: the first index at which the elements'
own `cmp` is nonzero decides the result, and when the element
comparisons agree over the whole common length the result is the length
difference, so a proper prefix compares less; in particular
`[1,2].cmp([1,2,3]) < 0` and `[1,3].cmp([1,2,9]) > 0`. -/
theorem list_cmp_spec :
    cmp (.list [.int 1, .int 2]) (.list [.int 1, .int 2, .int 3]) = .ok (-1) ∧
    cmp (.list [.int 1, .int 3]) (.list [.int 1, .int 2, .int 9]) = .ok 1 ∧
    (∀ (l : List Value) (rhs : Value) (k : Nat)
      (hka : k < l.length) (hkb : k < (toArray rhs).length) (c : Int),
      (∀ (i : Nat) (hia : i < l.length) (hib : i < (toArray rhs).length),
        i < k → cmp (l.get ⟨i, hia⟩) ((toArray rhs).get ⟨i, hib⟩) = .ok 0) →
      cmp (l.get ⟨k, hka⟩) ((toArray rhs).get ⟨k, hkb⟩) = .ok c → c ≠ 0 →
      cmp (.list l) rhs = .ok c) ∧
    (∀ (l : List Value) (rhs : Value),
      (∀ (i : Nat) (hia : i < l.length) (hib : i < (toArray rhs).length),
        cmp (l.get ⟨i, hia⟩) ((toArray rhs).get ⟨i, hib⟩) = .ok 0) →
      cmp (.list l) rhs = .ok ((l.length : Int) - (toArray rhs).length)) := by
  refine ⟨rfl, rfl, fun l rhs k hka hkb c hpre hk hc => ?_, fun l rhs hpre => ?_⟩
  · show cmpList l (toArray rhs) = .ok c
    exact cmpList_first_diff l (toArray rhs) k hka hkb c hpre hk hc
  · show cmpList l (toArray rhs) = .ok _
    exact cmpList_all_eq l (toArray rhs) hpre

/-- Witness for C5: the first-difference clause applied at
`[1,3].cmp([1,2,9])` with the difference at index 1, and the
common-length clause applied at `[1,2].cmp([1,2,3])`. -/
theorem list_cmp_spec_witness :
    cmp (.list [.int 1, .int 3]) (.list [.int 1, .int 2, .int 9]) = .ok 1 ∧
    cmp (.list [.int 1, .int 2]) (.list [.int 1, .int 2, .int 3]) =
      .ok (((2 : Nat) : Int) - ((3 : Nat) : Int)) :=
  ⟨list_cmp_spec.2.2.1 [.int 1, .int 3] (.list [.int 1, .int 2, .int 9]) 1
    (by decide) (by decide) 1
    (fun i hia hib hik =>
      match i, hik with
      | 0, _ => rfl
      | i + 1, hik => absurd hik (by omega))
    rfl (by decide),
   list_cmp_spec.2.2.2 [.int 1, .int 2] (.list [.int 1, .int 2, .int 3])
    (fun i hia hib =>
      match i, hia with
      | 0, _ => rfl
      | 1, _ => rfl
      | i + 2, hia => absurd hia (by simp at hia))⟩

/-- Claim C6: `eql` returns true exactly when the two operands are the
same concrete variant with equal underlying content (so never across
variants, and List equality is structural and recursive over elements);
in particular every List is `eql` to itself and to the list rebuilt
element-wise from it. -/
theorem eql_structural :
    (∀ v w : Value, eql v w = true ↔ v = w) ∧
    (∀ l : List Value, eql (.list l) (.list l) = true) ∧
    (∀ l : List Value, eql (.list l) (.list (rebuild l)) = true) := by
  have hrebuild : ∀ l : List Value, rebuild l = l := by
    intro l
    induction l with
    | nil => rfl
    | cons a as ih => show a :: rebuild as = a :: as; rw [ih]
  refine ⟨fun v w => ⟨eql_eq v w, fun h => h ▸ eql_refl v⟩,
    fun l => eql_refl _, fun l => ?_⟩
  rw [hrebuild]
  exact eql_refl _

/-- Claim C7: Null's coercions are fixed — `toString()` is the empty
string, `toNumber()` is 0, `toBoolean()` is false, `toArray()` is the
empty list, and `cmp(rhs)` fails with a RuntimeError for every `rhs`. -/
theorem null_coercions :
    toText .null = [] ∧
    toNumber .null = 0 ∧
    toBoolean .null = false ∧
    toArray .null = [] ∧
    ∀ rhs, cmp .null rhs = .error (.runtimeError "Cannot compare Null.") :=
  ⟨rfl, rfl, rfl, rfl, fun _ => rfl⟩

/-- Claim C8: parsing the source `"@"` yields an empty List; parsing
`"T"` and parsing `"TRUE"` both yield the boolean true (the uppercase
letters after the `T` are consumed as noise); and parsing a source that
starts with an opening quote with no matching close fails with a
ParseError. -/
theorem parse_examples :
    runSource "@".data = .ok (.list []) ∧
    runSource "T".data = .ok (.bool true) ∧
    runSource "TRUE".data = .ok (.bool true) ∧
    (∃ m, runSource ('"' :: "abc".data) = .error (.parseError m)) :=
  ⟨rfl, rfl, rfl, ⟨_, rfl⟩⟩

/-- Claim C4: for every nonempty Str `s`, `head(s)` concatenated with
`tail(s)` via `Str.add` reconstructs `s`; for every nonempty List `l`,
the one-element list containing `head(l)` concatenated with `tail(l)` via
`List.add` reconstructs `l`. -/
theorem head_tail_reconstruct (s : List Char) (l : List Value)
    (hs : s ≠ []) (hl : l ≠ []) :
    (∃ c rest, strHead s = .ok (.str [c]) ∧ strTail s = .ok (.str rest) ∧
      strAdd [c] (.str rest) = .str s) ∧
    (∃ v rest, listHead l = .ok v ∧ listTail l = .ok (.list rest) ∧
      listAdd [v] (.list rest) = .list l) := by
  constructor
  · match s, hs with
    | c :: rest, _ => exact ⟨c, rest, rfl, rfl, rfl⟩
  · match l, hl with
    | v :: rest, _ => exact ⟨v, rest, rfl, rfl, rfl⟩

/-- Witness for C4 at the nonempty string "ab" and the nonempty list
`[Int 1, Int 2]`. -/
theorem head_tail_reconstruct_witness :
    ("ab".data ≠ ([] : List Char)) ∧
    ([Value.int 1, Value.int 2] ≠ ([] : List Value)) ∧
    ((∃ c rest, strHead "ab".data = .ok (.str [c]) ∧
        strTail "ab".data = .ok (.str rest) ∧
        strAdd [c] (.str rest) = .str "ab".data) ∧
      (∃ v rest, listHead [Value.int 1, Value.int 2] = .ok v ∧
        listTail [Value.int 1, Value.int 2] = .ok (.list rest) ∧
        listAdd [v] (.list rest) = .list [Value.int 1, Value.int 2])) :=
  ⟨by decide, fun h => List.noConfusion h,
   head_tail_reconstruct "ab".data [Value.int 1, Value.int 2]
     (by decide) (fun h => List.noConfusion h)⟩

/-- Claim C9: for every value `n`, Int zero raised to the power `n` fails
with a RuntimeError when `n.toNumber()` is negative, `0.pow(0)` returns
Int 1, and for all Int bases outside the failing case the result is the
Int `Math.trunc(b ** n.toNumber())`. -/
theorem intPow_spec (n : Value) :
    (toNumber n < 0 →
      intPow 0 n = .error (.runtimeError "Cannot exponentiate zero to a negative power")) ∧
    intPow 0 (.int 0) = .ok (.int 1) ∧
    (∀ b : Int, ¬(b = 0 ∧ toNumber n < 0) →
      intPow b n = .ok (.int (powTrunc b (toNumber n)))) := by
  refine ⟨fun h => ?_, rfl, fun b h => ?_⟩
  · simp [intPow, h]
  · simp [intPow, h]

/-- Witness for C9 at concrete inputs. -/
theorem intPow_spec_witness :
    intPow 0 (.int (-1)) = .error (.runtimeError "Cannot exponentiate zero to a negative power") ∧
    intPow 0 (.int 0) = .ok (.int 1) ∧
    intPow 2 (.int (-1)) = .ok (.int (powTrunc 2 (-1))) :=
  ⟨(intPow_spec (.int (-1))).1 (by decide),
   (intPow_spec (.int 0)).2.1,
   (intPow_spec (.int (-1))).2.2 2 (by decide)⟩

/-- The while-loop of `List.mul` finishes in `num` iterations when
started from a nonnegative `num`, appending `data` that many times. -/
theorem listMulLoop_nonneg (data : List Value) :
    ∀ (fuel k : Nat) (acc : List Value), k < fuel →
      listMulLoop data fuel k acc = some (acc ++ repeatN data k) := by
  intro fuel
  induction fuel with
  | zero => intro k acc h; omega
  | succ fuel ih =>
    intro k acc h
    match k with
    | 0 => simp [listMulLoop, repeatN]
    | k + 1 =>
      have hk : k < fuel := by omega
      have hcast : (((k + 1 : Nat)) : Int) - 1 = (k : Int) := by push_cast; ring
      simp only [listMulLoop, repeatN]
      rw [if_neg (by omega), hcast, ih k (acc ++ data) hk]
      simp [repeatN, List.append_assoc]

/-- The while-loop of `List.mul` never finishes when started from a
negative `num`: the decrement only moves it further from zero, so every
fuel bound is exhausted. -/
theorem listMulLoop_neg (data : List Value) :
    ∀ (fuel : Nat) (num : Int) (acc : List Value), num < 0 →
      listMulLoop data fuel num acc = none := by
  intro fuel
  induction fuel with
  | zero => intro num acc _; rfl
  | succ fuel ih =>
    intro num acc h
    simp only [listMulLoop]
    rw [if_neg (by omega)]
    exact ih (num - 1) (acc ++ data) (by omega)

/-- Claim C10: `List.mul` (part_001) is total only for nonnegative
counts.  When `rhs.toNumber() = n ≥ 0` the while-loop terminates — any
fuel bound beyond `n` iterations yields the elements of `l` repeated `n`
times (the empty list when `n = 0`) — and when `rhs.toNumber()` is
negative the loop never reaches zero: no fuel bound suffices, i.e. the
call does not terminate. -/
theorem listMul_totality (l : List Value) (rhs : Value) :
    (0 ≤ toNumber rhs →
      ∀ fuel, (toNumber rhs).toNat < fuel →
        listMul l rhs fuel = some (repeatN l (toNumber rhs).toNat)) ∧
    (toNumber rhs = 0 → ∀ fuel, 0 < fuel → listMul l rhs fuel = some []) ∧
    (toNumber rhs < 0 → ∀ fuel, listMul l rhs fuel = none) := by
  refine ⟨fun h fuel hf => ?_, fun h fuel hf => ?_, fun h fuel => ?_⟩
  · have h2 := listMulLoop_nonneg l fuel (toNumber rhs).toNat [] hf
    rw [Int.toNat_of_nonneg h] at h2
    unfold listMul
    simpa using h2
  · unfold listMul
    rw [h]
    match fuel, hf with
    | fuel + 1, _ => simp [listMulLoop]
  · exact listMulLoop_neg l fuel (toNumber rhs) [] h

/-- Witness for C10 at concrete inputs: repeating `[Int 7]` twice with
ample fuel, zero times, and a negative count exhausting a sample fuel. -/
theorem listMul_totality_witness :
    listMul [Value.int 7] (.int 2) 5 = some (repeatN [Value.int 7] 2) ∧
    listMul [Value.int 7] (.int 0) 1 = some [] ∧
    listMul [Value.int 7] (.int (-1)) 100 = none :=
  ⟨(listMul_totality [Value.int 7] (.int 2)).1 (by decide) 5 (by decide),
   (listMul_totality [Value.int 7] (.int 0)).2.1 rfl 1 (by decide),
   (listMul_totality [Value.int 7] (.int (-1))).2.2 (by decide) 100⟩

end Knight
